import Mathlib

/-!
Verification development for the intervoo-audio repository.

The repository consists of two Python files: `app.py` (an interactive audio
browser with a persistent duration cache, a concurrent probe scheduler and
transcript extraction) and `fix_durations.py` (a batch job that re-probes
audio files and writes unit-normalised millisecond durations back to the
database).  The definitions below are a shallow embedding of those functions:
floats are modelled by `ℚ`, the database and file system by explicit state
values, the external `ffprobe` tool by an oracle describing the outcome of
one invocation, and thread-pool completion order by an explicit permutation
of indices.
-/

/-- Substring test modelling Python's `needle in hay` on strings and SQL
`LIKE` with a pattern of the shape `'%needle%'`. -/
def pyIn (needle hay : String) : Bool :=
  decide (needle.data <:+: hay.data)

/-- Python's `str.strip()`: drop leading and trailing whitespace characters,
modelled structurally on the string's character list. -/
def pyStrip (s : String) : String :=
  ⟨((s.data.dropWhile Char.isWhitespace).reverse.dropWhile Char.isWhitespace).reverse⟩

/-- Python's `int()` applied to a rational number: truncation toward zero. -/
def pyInt (q : ℚ) : ℤ :=
  q.num.tdiv q.den

/-- Millisecond conversion performed by `fix_durations.py`:
`duration_ms = int(duration_sec * 1000)`. -/
def duration_ms_of (s : ℚ) : ℤ :=
  pyInt (s * 1000)

/-- JSON `format` object inside ffprobe's output; the `duration` field, when
present, is a string (that is how ffprobe prints it). -/
structure FormatObj where
  duration : Option String
  deriving DecidableEq

/-- Shape of the standard output produced by one ffprobe invocation, as seen
by `json.loads` followed by `data.get("format", {})`. -/
inductive FfprobeJson
  | malformed
  | parsed (format : Option FormatObj)
  deriving DecidableEq

/-- Outcome of attempting to run the external `ffprobe` process once. -/
inductive ToolOutcome
  | completed (returncode : ℤ) (stdout : FfprobeJson)
  | timedOut
  | toolMissing
  | raisedOther
  deriving DecidableEq

/-- Result of one probe call as observed by the caller: either an ordinary
return value (`float | None` in the source) or a fatal `sys.exit(1)`. -/
inductive ProbeRet
  | val (d : Option ℚ)
  | fatalExit
  deriving DecidableEq

/-- Shared parsing tail of both probers: check the decoded JSON, fetch
`data.get("format", {}).get("duration")`, test its Python truthiness and
convert with `float()` (modelled by the parameter `pf`; a `float()` failure
raises and is caught, yielding `None`). -/
def parse_ffprobe_output (pf : String → Option ℚ) (stdout : FfprobeJson) : Option ℚ :=
  match stdout with
  | .malformed => none
  | .parsed format =>
    let duration : Option String :=
      match format with
      | none => none
      | some f => f.duration
    match duration with
    | none => none
    | some s =>
      if s.isEmpty then none
      else
        match pf s with
        | none => none
        | some q => some q

/-- Body of `app.py`'s `get_audio_duration` after the domain check: every
exception, including a missing ffprobe binary, is swallowed by the blanket
`except Exception` and turned into `None`. -/
def app_tool_result (pf : String → Option ℚ) : ToolOutcome → Option ℚ
  | .toolMissing => none
  | .timedOut => none
  | .raisedOther => none
  | .completed returncode stdout =>
    if returncode ≠ 0 then none
    else parse_ffprobe_output pf stdout

/-- Body of `fix_durations.py`'s `get_duration_ffprobe`: timeouts, decode
errors and other exceptions yield `None`, but `FileNotFoundError` (ffprobe
absent) calls `sys.exit(1)`. -/
def ffprobe_tool_result (pf : String → Option ℚ) : ToolOutcome → ProbeRet
  | .toolMissing => .fatalExit
  | .timedOut => .val none
  | .raisedOther => .val none
  | .completed returncode stdout =>
    if returncode ≠ 0 then .val none
    else .val (parse_ffprobe_output pf stdout)

/-- The app's prober `get_audio_duration` from `app.py`.  The second
component records whether the external tool was invoked.  The guard is the
source's `if not url or "amazonaws.com" not in url: return None`. -/
def get_audio_duration (pf : String → Option ℚ) (tool : String → ToolOutcome)
    (url : String) : ProbeRet × Bool :=
  if url.isEmpty || !(pyIn "amazonaws.com" url) then (.val none, false)
  else (.val (app_tool_result pf (tool url)), true)

/-- The batch job's prober `get_duration_ffprobe` from `fix_durations.py`.
It performs no domain check and always invokes the tool. -/
def get_duration_ffprobe (pf : String → Option ℚ) (tool : String → ToolOutcome)
    (url : String) : ProbeRet × Bool :=
  (ffprobe_tool_result pf (tool url), true)

/-- Value stored by the scheduler for one completed future:
`results[idx] = duration or 0.0`, where both `None` and `0.0` are falsy. -/
def probeResult (probe : String → Option ℚ) (url : String) : ℚ :=
  match probe url with
  | none => 0
  | some d => if d = 0 then 0 else d

/-- The scheduler `get_durations_parallel` from `app.py`.  `results` starts
as `[0.0] * len(urls)`; `order` is the sequence of indices in which the
submitted futures complete (an arbitrary permutation of the index range),
and each completion writes its slot. -/
def get_durations_parallel (probe : String → Option ℚ) (urls : List String)
    (order : List ℕ) : List ℚ :=
  order.foldl
    (fun results idx => results.set idx (probeResult probe (urls.getD idx "")))
    (List.replicate urls.length 0)

/-- State of the persistent cache file `audio_durations.json`. -/
inductive CacheFile
  | absent
  | unreadable
  | corrupt
  | valid (m : List (String × ℚ))
  deriving DecidableEq

/-- Relevant local file-system state: whether `.cache/` exists, and the
cache file itself. -/
structure FsState where
  cacheDirExists : Bool
  file : CacheFile
  deriving DecidableEq

/-- The cache reader `load_duration_cache` from `app.py`: an absent file,
an `IOError` on open/read, or a `json.JSONDecodeError` all yield `{}`. -/
def load_duration_cache (fs : FsState) : List (String × ℚ) :=
  match fs.file with
  | .valid m => m
  | _ => []

/-- The cache writer `save_duration_cache` from `app.py`, run to completion:
`CACHE_DIR.mkdir(exist_ok=True)` then a whole-file `json.dump`. -/
def save_duration_cache (cache : List (String × ℚ)) (_fs : FsState) : FsState :=
  { cacheDirExists := true, file := .valid cache }

/-- Behaviour of `save_duration_cache` when the process fails between
`open(DURATION_CACHE_FILE, "w")` and the completion of `json.dump`:
opening with mode `"w"` truncates the file first, so an interrupted save
leaves a truncated or half-written document that is not valid JSON. -/
def save_duration_cache_interrupted (_cache : List (String × ℚ)) (_fs : FsState) : FsState :=
  { cacheDirExists := true, file := .corrupt }

/-- Row of `conversation_recordings` as used by `fix_durations.py`. -/
structure DbRecord where
  id : ℕ
  audioFileUrl : Option String
  duration : Option ℤ
  status : String
  deriving DecidableEq

/-- WHERE clause assembled by `fetch_recordings`: status `'READY'`, non-null
URL, optionally the `LIKE '%amazonaws.com%'` dead-URL filter, and optionally
`id >= resume_from` — the latter only when `resume_from` is truthy
(Python's `if resume_from:` skips both `None` and `0`). -/
def wanted (skip_dead_urls : Bool) (resume_from : Option ℕ) (r : DbRecord) : Bool :=
  (r.status == "READY") && r.audioFileUrl.isSome &&
  (!skip_dead_urls || pyIn "amazonaws.com" (r.audioFileUrl.getD "")) &&
  (match resume_from with
   | none => true
   | some x => if x == 0 then true else decide (x ≤ r.id))

/-- The selection query of `fix_durations.py`: filter the table, order by
`id ASC`, and apply the optional `LIMIT`. -/
def fetch_recordings (table : List DbRecord) (resume_from : Option ℕ)
    (limit : Option ℕ) (skip_dead_urls : Bool) : List DbRecord :=
  let rows := (table.filter (wanted skip_dead_urls resume_from)).mergeSort
    (fun a b => a.id ≤ b.id)
  match limit with
  | none => rows
  | some n => rows.take n

/-- Per-record outcome printed by the reconciliation loop. -/
inductive Outcome
  | probeFailed
  | updated
  | dbError
  | dryRunReported
  deriving DecidableEq

/-- State threaded through the reconciliation loop of `main` in
`fix_durations.py`: the database (id ↦ stored duration), the success and
failure counters, and the per-record report lines
(id, old stored value, proposed millisecond value, outcome). -/
structure JobState where
  db : ℕ → Option ℤ
  success : ℕ
  failed : ℕ
  reports : List (ℕ × Option ℤ × Option ℤ × Outcome)

/-- The single-row write `update_duration` from `fix_durations.py`. -/
def update_duration (db : ℕ → Option ℤ) (record_id : ℕ) (duration_ms : ℤ) :
    ℕ → Option ℤ :=
  fun j => if j = record_id then some duration_ms else db j

/-- One iteration of the reconciliation loop: probe, convert to integer
milliseconds, and (outside dry-run) update + commit, rolling back the single
record on a commit failure (`commitOk` tells whether the commit succeeds). -/
def process_record (probe : String → Option ℚ) (dry_run : Bool)
    (commitOk : ℕ → Bool) (st : JobState) (r : DbRecord) : JobState :=
  match probe (r.audioFileUrl.getD "") with
  | none =>
    { st with failed := st.failed + 1,
              reports := st.reports ++ [(r.id, r.duration, none, .probeFailed)] }
  | some s =>
    let ms := duration_ms_of s
    if dry_run then
      { st with success := st.success + 1,
                reports := st.reports ++ [(r.id, r.duration, some ms, .dryRunReported)] }
    else if commitOk r.id then
      { st with db := update_duration st.db r.id ms,
                success := st.success + 1,
                reports := st.reports ++ [(r.id, r.duration, some ms, .updated)] }
    else
      { st with failed := st.failed + 1,
                reports := st.reports ++ [(r.id, r.duration, some ms, .dbError)] }

/-- The processing loop of `main` in `fix_durations.py`, folded over the
already-fetched records. -/
def main_loop (probe : String → Option ℚ) (dry_run : Bool) (commitOk : ℕ → Bool)
    (db0 : ℕ → Option ℤ) (recs : List DbRecord) : JobState :=
  recs.foldl (process_record probe dry_run commitOk) ⟨db0, 0, 0, []⟩

/-- One element of `transcript.segments` in the feedback report JSON. -/
structure SegmentJson where
  speaker : Option String
  content : Option String
  deriving DecidableEq

/-- One element of `transcript.speaker_map` in the feedback report JSON. -/
structure SpeakerMapEntry where
  speaker_id : Option String
  speaker_name : Option String
  deriving DecidableEq

/-- The `transcript` object of the feedback report JSON. -/
structure TranscriptJson where
  segments : Option (List SegmentJson)
  speaker_map : Option (List SpeakerMapEntry)
  deriving DecidableEq

/-- The feedback report document. -/
structure ReportJson where
  transcript : Option TranscriptJson
  deriving DecidableEq

/-- Segment list read by `extract_transcript_from_segments`:
`report_json.get("transcript", {}).get("segments", [])`. -/
def reportSegments (rj : ReportJson) : List SegmentJson :=
  match rj.transcript with
  | none => []
  | some t => t.segments.getD []

/-- Speaker map read by `extract_transcript_from_segments`:
`report_json.get("transcript", {}).get("speaker_map", [])`. -/
def reportSpeakerMap (rj : ReportJson) : List SpeakerMapEntry :=
  match rj.transcript with
  | none => []
  | some t => t.speaker_map.getD []

/-- Transcript extraction from `app.py` (`extract_transcript_from_segments`).
A falsy report (`None` or `{}`) is modelled by the `none` input.  The
`speaker_names` dict is modelled as a function built by successive updates
(later assignments shadow earlier ones), exactly as Python dict assignment
behaves. -/
def extract_transcript_from_segments (report_json : Option ReportJson) : Option String :=
  match report_json with
  | none => none
  | some rj =>
    let segments := reportSegments rj
    let speaker_map := reportSpeakerMap rj
    if segments.isEmpty then none
    else
      let speaker_names : String → Option String :=
        speaker_map.foldl
          (fun acc m => fun s =>
            if s == m.speaker_id.getD "" then some (m.speaker_name.getD "Unknown")
            else acc s)
          (fun _ => none)
      let transcript_lines := segments.foldl
        (fun lines seg =>
          if (pyStrip (seg.content.getD "")).isEmpty then lines
          else lines ++ ["[" ++
            ((speaker_names (seg.speaker.getD "")).getD (seg.speaker.getD "")) ++
            "]: " ++ pyStrip (seg.content.getD "")])
        []
      if transcript_lines.isEmpty then none
      else some (String.intercalate "\n" transcript_lines)

/-- Report line computed for one record by a dry-run pass of the
reconciliation loop. -/
def dry_run_report (probe : String → Option ℚ) (r : DbRecord) :
    ℕ × Option ℤ × Option ℤ × Outcome :=
  match probe (r.audioFileUrl.getD "") with
  | none => (r.id, r.duration, none, .probeFailed)
  | some s => (r.id, r.duration, some (duration_ms_of s), .dryRunReported)

/-- Declarative speaker lookup: the last `speaker_map` entry whose id matches
wins; an unmatched id falls back to the raw id. -/
def lookup_speaker_name (speaker_map : List SpeakerMapEntry) (sid : String) : String :=
  match speaker_map.reverse.find? (fun m => sid == m.speaker_id.getD "") with
  | some m => m.speaker_name.getD "Unknown"
  | none => sid

/-- Declarative description of the transcript lines: trim each segment's
content, drop empty ones, and render `"[name]: content"` in segment order. -/
def transcript_lines_spec (speaker_map : List SpeakerMapEntry)
    (segments : List SegmentJson) : List String :=
  segments.filterMap
    (fun seg =>
      let content := pyStrip (seg.content.getD "")
      if content.isEmpty then none
      else some ("[" ++ lookup_speaker_name speaker_map (seg.speaker.getD "") ++
        "]: " ++ content))

/-- Concrete probe used in witnesses: URL `"a"` succeeds with 7 seconds,
URL `"b"` fails, anything else reports a zero-length file. -/
def probeDemo : String → Option ℚ := fun u =>
  if u == "a" then some 7 else if u == "b" then none else some 0

/-- Concrete record used in witnesses: stored duration 45, unit ambiguous. -/
def recDemo : DbRecord :=
  ⟨7, some "https://x.amazonaws.com/a.mp3", some 45, "READY"⟩

/-- Concrete probe returning 45.3 seconds for every URL. -/
def probe453 : String → Option ℚ := fun _ => some (453 / 10)

/-- Concrete table used in witnesses for the selection query. -/
def tableDemo : List DbRecord :=
  [⟨3, some "https://x.amazonaws.com/c.mp3", some 9, "READY"⟩,
   ⟨1, some "https://x.amazonaws.com/a.mp3", none, "READY"⟩,
   ⟨2, some "http://foreverlearning.in/b.mp3", some 5, "READY"⟩]

/-- Concrete report document of the spec's transcript example. -/
def demoReport : ReportJson :=
  ⟨some ⟨some [⟨some "S0", some " hi "⟩, ⟨some "S1", some ""⟩],
    some [⟨some "S0", some "Ana"⟩]⟩⟩

/-- Tool oracle for witnesses: every invocation succeeds and reports a
duration string of `"5.0"`. -/
def toolFoundDemo : String → ToolOutcome := fun _ =>
  .completed 0 (.parsed (some ⟨some "5.0"⟩))

/-- Float-parsing oracle for witnesses. -/
def pfDemo : String → Option ℚ := fun s => if s == "5.0" then some 5 else none

/-- Tool oracle modelling an environment with no ffprobe binary. -/
def toolAbsentDemo : String → ToolOutcome := fun _ => .toolMissing

theorem foldl_set_length (f : ℕ → ℚ) (order : List ℕ) (init : List ℚ) :
    (order.foldl (fun rs idx => rs.set idx (f idx)) init).length = init.length := by
  induction order generalizing init with
  | nil => rfl
  | cons a t ih => rw [List.foldl_cons, ih, List.length_set]

theorem foldl_set_getElem (f : ℕ → ℚ) (order : List ℕ) (init : List ℚ) (i : ℕ) :
    (order.foldl (fun rs idx => rs.set idx (f idx)) init)[i]? =
      if i ∈ order ∧ i < init.length then some (f i) else init[i]? := by
  induction order generalizing init with
  | nil => simp
  | cons a t ih =>
    rw [List.foldl_cons, ih, List.length_set]
    by_cases hmem : i ∈ t
    · have hm : i ∈ a :: t := List.mem_cons_of_mem a hmem
      by_cases hlen : i < init.length
      · simp [hmem, hlen, hm]
      · have h1 : init[i]? = none := List.getElem?_eq_none (Nat.le_of_not_lt hlen)
        have h2 : (init.set a (f a))[i]? = none :=
          List.getElem?_eq_none (by rw [List.length_set]; exact Nat.le_of_not_lt hlen)
        simp [hmem, hlen, h1, h2]
    · by_cases hia : a = i
      · subst hia
        by_cases hlen : a < init.length
        · simp [hmem, hlen, List.getElem?_set_self hlen]
        · have h1 : init[a]? = none := List.getElem?_eq_none (Nat.le_of_not_lt hlen)
          have h2 : (init.set a (f a))[a]? = none :=
            List.getElem?_eq_none (by rw [List.length_set]; exact Nat.le_of_not_lt hlen)
          simp [hmem, hlen, h1, h2]
      · have h2 : (init.set a (f a))[i]? = init[i]? := List.getElem?_set_ne hia
        have hia2 : i ≠ a := fun h => hia h.symm
        simp [hmem, h2, List.mem_cons, hia2]

/-- Shared characterisation of the scheduler output: under any completion
order that is a permutation of the index range, slot `i` holds the
falsy-collapsed probe result of `urls[i]`. -/
theorem get_durations_parallel_getElem (probe : String → Option ℚ)
    (urls : List String) (order : List ℕ)
    (h : order.Perm (List.range urls.length)) (i : ℕ) (hi : i < urls.length) :
    (get_durations_parallel probe urls order)[i]? =
      some (probeResult probe urls[i]) := by
  unfold get_durations_parallel
  rw [foldl_set_getElem]
  have hmem : i ∈ order := h.mem_iff.mpr (List.mem_range.mpr hi)
  have hlen : i < (List.replicate urls.length (0 : ℚ)).length := by
    rw [List.length_replicate]; exact hi
  rw [if_pos ⟨hmem, hlen⟩]
  have : urls.getD i "" = urls[i] := by
    rw [List.getD_eq_getElem?_getD, List.getElem?_eq_getElem hi]; rfl
  rw [this]

/-- C1: for every list of URLs, every worker bound and every completion
order of the concurrent probes, `get_durations_parallel` returns a list
whose length equals the input length, whose slot `i` is determined solely
by the probe of `urls[i]` (so failure of one URL cannot affect any other
index or abort the batch), and a failed probe yields the sentinel `0.0` at
its own index. -/
theorem scheduler_index_aligned (probe : String → Option ℚ) (urls : List String)
    (order : List ℕ) (h : order.Perm (List.range urls.length)) :
    (get_durations_parallel probe urls order).length = urls.length ∧
    (∀ i (hi : i < urls.length),
      (get_durations_parallel probe urls order)[i]? =
        some (probeResult probe urls[i])) ∧
    (∀ i (hi : i < urls.length), probe urls[i] = none →
      (get_durations_parallel probe urls order)[i]? = some 0) := by
  refine ⟨?_, ?_, ?_⟩
  · unfold get_durations_parallel
    rw [foldl_set_length, List.length_replicate]
  · intro i hi
    exact get_durations_parallel_getElem probe urls order h i hi
  · intro i hi hfail
    rw [get_durations_parallel_getElem probe urls order h i hi]
    unfold probeResult
    rw [hfail]

theorem scheduler_index_aligned_witness :
    (get_durations_parallel probeDemo ["a", "b"] [1, 0]).length = 2 ∧
    (get_durations_parallel probeDemo ["a", "b"] [1, 0])[0]? =
      some (probeResult probeDemo "a") ∧
    (get_durations_parallel probeDemo ["a", "b"] [1, 0])[1]? = some 0 := by
  have h := scheduler_index_aligned probeDemo ["a", "b"] [1, 0] (by decide)
  exact ⟨h.1, h.2.1 0 (by decide), h.2.2 1 (by decide) (by decide)⟩

/-- C10: every entry of the scheduler's result is a plain rational (never an
optional value), and slot `i` is the sentinel `0` whenever the probe of
`urls[i]` returns `none` or exactly `0`: `results[idx] = duration or 0.0`
collapses a genuine zero-second duration and a failed probe to the same
observable value. -/
theorem scheduler_zero_collapse (probe : String → Option ℚ) (urls : List String)
    (order : List ℕ) (h : order.Perm (List.range urls.length)) :
    ∀ i (hi : i < urls.length),
      (probe urls[i] = none ∨ probe urls[i] = some 0) →
      (get_durations_parallel probe urls order)[i]? = some 0 := by
  intro i hi hcase
  rw [get_durations_parallel_getElem probe urls order h i hi]
  unfold probeResult
  rcases hcase with hc | hc
  · rw [hc]
  · rw [hc]
    simp

theorem scheduler_zero_collapse_witness :
    (get_durations_parallel probeDemo ["c", "b"] [1, 0])[0]? = some 0 ∧
    (get_durations_parallel probeDemo ["c", "b"] [1, 0])[1]? = some 0 := by
  have h := scheduler_zero_collapse probeDemo ["c", "b"] [1, 0] (by decide)
  exact ⟨h 0 (by decide) (Or.inr (by decide)), h 1 (by decide) (Or.inl (by decide))⟩

/-- C4: saving any mapping (including the empty one) and then loading
returns that mapping unchanged, and loading from a missing, unreadable or
corrupt cache file returns the empty mapping without raising. -/
theorem cache_round_trip :
    (∀ (m : List (String × ℚ)) (fs : FsState),
      load_duration_cache (save_duration_cache m fs) = m) ∧
    (∀ d : Bool, load_duration_cache ⟨d, .absent⟩ = []) ∧
    (∀ d : Bool, load_duration_cache ⟨d, .unreadable⟩ = []) ∧
    (∀ d : Bool, load_duration_cache ⟨d, .corrupt⟩ = []) :=
  ⟨fun _ _ => rfl, fun _ => rfl, fun _ => rfl, fun _ => rfl⟩

/-- C5 counterexample: the save is not atomic.  Starting from a file that
validly holds the mapping `[("u", 2)]`, a save that fails between opening
the file in mode `"w"` (which truncates it) and completing `json.dump`
leaves a corrupt file, and a subsequent load observes the empty mapping —
not the previously persisted mapping as the claim states. -/
theorem cache_save_not_atomic_cex :
    load_duration_cache
      (save_duration_cache_interrupted [("u", 3)] ⟨true, .valid [("u", 2)]⟩) = [] ∧
    ([] : List (String × ℚ)) ≠ [("u", 2)] :=
  ⟨rfl, by decide⟩

/-- C5 amended: save first ensures the cache directory exists and then
overwrites the cache file in place with the full mapping, so a completed
save is what a subsequent load observes (last successful save wins); the
write is not atomic, however — a save interrupted after the truncating open
leaves a corrupt file and load then observes the empty mapping, not the
previously persisted one. -/
theorem cache_save_amended :
    (∀ (m : List (String × ℚ)) (fs : FsState),
      (save_duration_cache m fs).cacheDirExists = true ∧
      load_duration_cache (save_duration_cache m fs) = m) ∧
    (∀ (m : List (String × ℚ)) (fs : FsState),
      (save_duration_cache_interrupted m fs).cacheDirExists = true ∧
      load_duration_cache (save_duration_cache_interrupted m fs) = []) :=
  ⟨fun _ _ => ⟨rfl, rfl⟩, fun _ _ => ⟨rfl, rfl⟩⟩

theorem duration_ms_453 : duration_ms_of (453 / 10 : ℚ) = 45300 := by
  have h : (453 / 10 : ℚ) * 1000 = 45300 := by norm_num
  unfold duration_ms_of pyInt
  rw [h, Rat.num_ofNat, Rat.den_ofNat, Nat.cast_one, Int.tdiv_one]

theorem process_record_db_other (probe : String → Option ℚ) (dry_run : Bool)
    (commitOk : ℕ → Bool) (st : JobState) (r : DbRecord) (j : ℕ)
    (hne : r.id ≠ j) :
    (process_record probe dry_run commitOk st r).db j = st.db j := by
  unfold process_record
  cases hp : probe (r.audioFileUrl.getD "") with
  | none => rfl
  | some s =>
    by_cases hd : dry_run
    · simp [hd]
    · by_cases hc : commitOk r.id
      · have hne2 : j ≠ r.id := fun h => hne h.symm
        simp [hd, hc, update_duration, hne2]
      · simp [hd, hc]

theorem foldl_db_untouched (probe : String → Option ℚ) (dry_run : Bool)
    (commitOk : ℕ → Bool) (recs : List DbRecord) (st : JobState) (j : ℕ)
    (h : ∀ r ∈ recs, r.id ≠ j) :
    (recs.foldl (process_record probe dry_run commitOk) st).db j = st.db j := by
  induction recs generalizing st with
  | nil => rfl
  | cons r t ih =>
    rw [List.foldl_cons,
      ih _ (fun r2 hr2 => h r2 (List.mem_cons_of_mem _ hr2)),
      process_record_db_other _ _ _ _ _ _ (h r (List.mem_cons_self r t))]

/-- C2: when a record's probe succeeds with `s` seconds and the job is not
in dry-run mode, the reconciliation loop writes back exactly the integer
millisecond value obtained by truncating `s * 1000`; for the spec's
scenario, a probe of 45.3 seconds is written as 45300 milliseconds, which
differs from the ambiguous stored value 45. -/
theorem reconcile_writes_truncated_ms (probe : String → Option ℚ)
    (commitOk : ℕ → Bool) (db0 : ℕ → Option ℤ) (pre post : List DbRecord)
    (r : DbRecord) (s : ℚ)
    (hp : probe (r.audioFileUrl.getD "") = some s)
    (hc : commitOk r.id = true)
    (hpost : ∀ r2 ∈ post, r2.id ≠ r.id) :
    (main_loop probe false commitOk db0 (pre ++ r :: post)).db r.id =
      some (duration_ms_of s) ∧
    duration_ms_of (453 / 10 : ℚ) = 45300 ∧ ((45300 : ℤ) ≠ 45) := by
  refine ⟨?_, duration_ms_453, by decide⟩
  unfold main_loop
  rw [List.foldl_append, List.foldl_cons,
    foldl_db_untouched _ _ _ _ _ _ hpost]
  unfold process_record
  rw [hp]
  simp [hc, update_duration]

theorem reconcile_writes_truncated_ms_witness :
    probe453 (recDemo.audioFileUrl.getD "") = some (453 / 10 : ℚ) ∧
    (main_loop probe453 false (fun _ => true) (fun _ => none) [recDemo]).db 7 =
      some 45300 := by
  have h := reconcile_writes_truncated_ms probe453 (fun _ => true) (fun _ => none)
    [] [] recDemo (453 / 10) rfl rfl (by simp)
  refine ⟨rfl, ?_⟩
  have h2 := h.1
  rw [h.2.1] at h2
  simpa [recDemo] using h2

theorem main_loop_dry_general (probe : String → Option ℚ) (commitOk : ℕ → Bool)
    (recs : List DbRecord) (st : JobState) :
    (recs.foldl (process_record probe true commitOk) st).db = st.db ∧
    (recs.foldl (process_record probe true commitOk) st).reports =
      st.reports ++ recs.map (dry_run_report probe) := by
  induction recs generalizing st with
  | nil => simp
  | cons r t ih =>
    rw [List.foldl_cons]
    have h := ih (process_record probe true commitOk st r)
    have hdb : (process_record probe true commitOk st r).db = st.db := by
      unfold process_record
      cases probe (r.audioFileUrl.getD "") with
      | none => rfl
      | some s => simp
    have hrep : (process_record probe true commitOk st r).reports =
        st.reports ++ [dry_run_report probe r] := by
      unfold process_record dry_run_report
      cases probe (r.audioFileUrl.getD "") with
      | none => rfl
      | some s => simp
    refine ⟨by rw [h.1, hdb], ?_⟩
    rw [h.2, hrep, List.map_cons, List.append_assoc]
    rfl

/-- C8: in dry-run mode the reconciliation loop performs no database update
and no commit for any record — the database function is unchanged — while
the intended change of every record is still computed and reported. -/
theorem dry_run_frame (probe : String → Option ℚ) (commitOk : ℕ → Bool)
    (db0 : ℕ → Option ℤ) (recs : List DbRecord) :
    (main_loop probe true commitOk db0 recs).db = db0 ∧
    (main_loop probe true commitOk db0 recs).reports =
      recs.map (dry_run_report probe) := by
  unfold main_loop
  have h := main_loop_dry_general probe commitOk recs ⟨db0, 0, 0, []⟩
  exact ⟨h.1, by rw [h.2]; rfl⟩

theorem wanted_resume_split (skip : Bool) (X : ℕ) (r : DbRecord) :
    wanted skip (some X) r = (decide (X ≤ r.id) && wanted skip none r) := by
  unfold wanted
  by_cases hX : X = 0
  · subst hX
    simp
  · have hX2 : (X == 0) = false := by simpa using hX
    by_cases hle : X ≤ r.id
    · simp [hX2, hle]
    · simp [hX2, hle]

theorem filter_wanted_resume (table : List DbRecord) (skip : Bool) (X : ℕ) :
    table.filter (wanted skip (some X)) =
      (table.filter (wanted skip none)).filter (fun r => decide (X ≤ r.id)) := by
  rw [List.filter_filter]
  exact List.filter_congr (fun r _ => wanted_resume_split skip X r)

theorem pairwise_le_mergeSort (l : List DbRecord) :
    (l.mergeSort (fun a b => a.id ≤ b.id)).Pairwise (fun a b => a.id ≤ b.id) := by
  have h := @List.sorted_mergeSort DbRecord (fun a b => decide (a.id ≤ b.id))
    (fun a b c h1 h2 => by
      simp only [decide_eq_true_eq] at h1 h2 ⊢
      omega)
    (fun a b => by
      simp only [Bool.or_eq_true, decide_eq_true_eq]
      omega) l
  exact h.imp (fun h2 => by simpa using h2)

theorem nodup_ids_of_sublist {l₁ l₂ : List DbRecord} (h : l₁.Sublist l₂)
    (h2 : (l₂.map DbRecord.id).Nodup) : (l₁.map DbRecord.id).Nodup :=
  List.Nodup.sublist (List.Sublist.map DbRecord.id h) h2

theorem nodup_ids_of_perm {l₁ l₂ : List DbRecord} (h : l₁.Perm l₂)
    (h2 : (l₂.map DbRecord.id).Nodup) : (l₁.map DbRecord.id).Nodup :=
  (List.Perm.nodup_iff (List.Perm.map DbRecord.id h)).mpr h2

theorem pairwise_lt_of_le_nodup {l : List DbRecord}
    (h1 : l.Pairwise (fun a b => a.id ≤ b.id))
    (h2 : (l.map DbRecord.id).Nodup) :
    l.Pairwise (fun a b => a.id < b.id) := by
  have h3 : l.Pairwise (fun a b => a.id ≠ b.id) := List.pairwise_map.mp h2
  exact (h1.and h3).imp (fun h => lt_of_le_of_ne h.1 h.2)

theorem eq_of_perm_of_pairwise_lt {l₁ l₂ : List DbRecord} (hp : l₁.Perm l₂)
    (h₁ : l₁.Pairwise (fun a b => a.id < b.id))
    (h₂ : l₂.Pairwise (fun a b => a.id < b.id)) : l₁ = l₂ := by
  haveI : IsAntisymm DbRecord (fun a b => a.id < b.id) :=
    ⟨fun a b hab hba => absurd (Nat.lt_trans hab hba) (Nat.lt_irrefl _)⟩
  exact List.eq_of_perm_of_sorted hp (by exact h₁) (by exact h₂)

/-- C3: when the table's identifiers are distinct (they are a primary key),
the selection query with `resume_from = X` returns exactly the records with
identifier at least `X` among those a full run would return, in the same
ascending-identifier order. -/
theorem resume_selects_suffix (table : List DbRecord) (X : ℕ) (skip : Bool)
    (hnodup : (table.map DbRecord.id).Nodup) :
    fetch_recordings table (some X) none skip =
      (fetch_recordings table none none skip).filter (fun r => decide (X ≤ r.id)) := by
  have hL : fetch_recordings table (some X) none skip =
      (table.filter (wanted skip (some X))).mergeSort (fun a b => a.id ≤ b.id) := rfl
  have hR : fetch_recordings table none none skip =
      (table.filter (wanted skip none)).mergeSort (fun a b => a.id ≤ b.id) := rfl
  rw [hL, hR]
  have hperm : ((table.filter (wanted skip (some X))).mergeSort
      (fun a b => a.id ≤ b.id)).Perm
      (((table.filter (wanted skip none)).mergeSort
        (fun a b => a.id ≤ b.id)).filter (fun r => decide (X ≤ r.id))) := by
    refine (List.mergeSort_perm _ _).trans ?_
    rw [filter_wanted_resume]
    exact List.Perm.filter _ (List.mergeSort_perm _ _).symm
  have hsort1 := pairwise_lt_of_le_nodup
    (pairwise_le_mergeSort (table.filter (wanted skip (some X))))
    (nodup_ids_of_perm (List.mergeSort_perm _ _)
      (nodup_ids_of_sublist (List.filter_sublist _) hnodup))
  have hsort2 := pairwise_lt_of_le_nodup
    ((pairwise_le_mergeSort (table.filter (wanted skip none))).filter
      (fun r => decide (X ≤ r.id)))
    (nodup_ids_of_sublist (List.filter_sublist _)
      (nodup_ids_of_perm (List.mergeSort_perm _ _)
        (nodup_ids_of_sublist (List.filter_sublist _) hnodup)))
  exact eq_of_perm_of_pairwise_lt hperm hsort1 hsort2

theorem resume_selects_suffix_witness :
    fetch_recordings tableDemo (some 2) none true =
      (fetch_recordings tableDemo none none true).filter
        (fun r => decide (2 ≤ r.id)) :=
  resume_selects_suffix tableDemo 2 true (by decide)

/-- C6 counterexample: the batch job's probe operation
(`get_duration_ffprobe`) performs no domain check.  For a URL whose host
does not match the storage-provider pattern it still invokes the external
tool (second component `true`) and can even return a duration, instead of
returning `None` without invoking the tool as the claim states. -/
theorem probe_domain_check_cex :
    (get_duration_ffprobe pfDemo toolFoundDemo "http://foreverlearning.in/a.mp3").2
      = true ∧
    (get_duration_ffprobe pfDemo toolFoundDemo "http://foreverlearning.in/a.mp3").1
      = ProbeRet.val (some 5) ∧
    pyIn "amazonaws.com" "http://foreverlearning.in/a.mp3" = false := by
  refine ⟨rfl, by decide, by decide⟩

/-- C6 amended: the interactive app's prober (`get_audio_duration`) returns
`None` for every URL not containing the storage-provider pattern, without
invoking the external tool; the batch job's prober (`get_duration_ffprobe`)
performs no domain check and invokes the tool for every URL — there the
domain restriction lives in the record selection query (`fetch_recordings`'
`LIKE '%amazonaws.com%'` filter), which is on by default. -/
theorem probe_domain_check_amended (pf : String → Option ℚ)
    (tool : String → ToolOutcome) (url : String)
    (h : pyIn "amazonaws.com" url = false) :
    get_audio_duration pf tool url = (ProbeRet.val none, false) ∧
    (get_duration_ffprobe pf tool url).2 = true := by
  constructor
  · unfold get_audio_duration
    rw [h]
    simp
  · rfl

theorem probe_domain_check_amended_witness :
    get_audio_duration pfDemo toolFoundDemo "http://foreverlearning.in/a.mp3" =
      (ProbeRet.val none, false) ∧
    (get_duration_ffprobe pfDemo toolFoundDemo "http://foreverlearning.in/a.mp3").2
      = true :=
  probe_domain_check_amended pfDemo toolFoundDemo
    "http://foreverlearning.in/a.mp3" (by decide)

/-- C7 counterexample: in the app's probe operation a missing external tool
is not fatal.  `get_audio_duration` on a matching URL with the tool absent
returns the ordinary per-URL value `None` (and had invoked the tool), not a
fatal abort — the claim's assertion that a missing tool aborts the whole
job is false for this probe operation. -/
theorem tool_missing_not_fatal_in_app_cex :
    get_audio_duration pfDemo toolAbsentDemo "https://b.amazonaws.com/x.mp3" =
      (ProbeRet.val none, true) ∧
    ProbeRet.val none ≠ ProbeRet.fatalExit := by
  refine ⟨by decide, by decide⟩

/-- C7 amended: in both probers a non-zero exit code, malformed output, a
missing or empty duration field, a timeout or any other caught exception
yields `None` and no exception escapes; a missing external tool is fatal
(`sys.exit(1)`) only in the batch job's prober, while the app's prober
swallows it like any other failure and returns `None`. -/
theorem probe_error_handling_amended (pf : String → Option ℚ) (code : ℤ)
    (fmt : FfprobeJson) :
    (code ≠ 0 → ffprobe_tool_result pf (.completed code fmt) = .val none) ∧
    (ffprobe_tool_result pf (.completed code .malformed) = .val none) ∧
    (ffprobe_tool_result pf (.completed 0 (.parsed none)) = .val none) ∧
    (ffprobe_tool_result pf (.completed 0 (.parsed (some ⟨none⟩))) = .val none) ∧
    (ffprobe_tool_result pf (.completed 0 (.parsed (some ⟨some ""⟩))) = .val none) ∧
    (ffprobe_tool_result pf .timedOut = .val none) ∧
    (ffprobe_tool_result pf .raisedOther = .val none) ∧
    (ffprobe_tool_result pf .toolMissing = .fatalExit) ∧
    (code ≠ 0 → app_tool_result pf (.completed code fmt) = none) ∧
    (app_tool_result pf (.completed code .malformed) = none) ∧
    (app_tool_result pf .timedOut = none) ∧
    (app_tool_result pf .raisedOther = none) ∧
    (app_tool_result pf .toolMissing = none) := by
  refine ⟨?_, ?_, rfl, rfl, rfl, rfl, rfl, rfl, ?_, ?_, rfl, rfl, rfl⟩
  · intro hc
    simp [ffprobe_tool_result, hc]
  · by_cases hc : code = 0
    · subst hc
      rfl
    · simp [ffprobe_tool_result, hc]
  · intro hc
    simp [app_tool_result, hc]
  · by_cases hc : code = 0
    · subst hc
      rfl
    · simp [app_tool_result, hc]

theorem probe_error_handling_amended_witness :
    (ffprobe_tool_result pfDemo (.completed 1 .malformed) = .val none) ∧
    (ffprobe_tool_result pfDemo .toolMissing = .fatalExit) ∧
    (app_tool_result pfDemo (.completed 1 .malformed) = none) := by
  have h := probe_error_handling_amended pfDemo 1 FfprobeJson.malformed
  exact ⟨h.1 (by decide), h.2.2.2.2.2.2.2.1, h.2.2.2.2.2.2.2.2.1 (by decide)⟩

theorem speaker_fold_eq (l : List SpeakerMapEntry) (acc : String → Option String)
    (s : String) :
    (l.foldl
      (fun acc2 m => fun x =>
        if x == m.speaker_id.getD "" then some (m.speaker_name.getD "Unknown")
        else acc2 x) acc) s =
      (match l.reverse.find? (fun m => s == m.speaker_id.getD "") with
       | some m => some (m.speaker_name.getD "Unknown")
       | none => acc s) := by
  induction l generalizing acc with
  | nil => rfl
  | cons m t ih =>
    rw [List.foldl_cons, ih, List.reverse_cons, List.find?_append]
    cases hfind : t.reverse.find? (fun m2 => s == m2.speaker_id.getD "") with
    | some m2 => simp
    | none =>
      by_cases hs : (s == m.speaker_id.getD "") = true
      · simp [hs]
      · simp [hs]

theorem transcript_fold_eq (names : String → Option String)
    (segs : List SegmentJson) (init : List String) :
    segs.foldl
      (fun lines seg =>
        if (pyStrip (seg.content.getD "")).isEmpty then lines
        else lines ++ ["[" ++
          ((names (seg.speaker.getD "")).getD (seg.speaker.getD "")) ++
          "]: " ++ pyStrip (seg.content.getD "")]) init =
    init ++ segs.filterMap
      (fun seg =>
        if (pyStrip (seg.content.getD "")).isEmpty then none
        else some ("[" ++
          ((names (seg.speaker.getD "")).getD (seg.speaker.getD "")) ++
          "]: " ++ pyStrip (seg.content.getD ""))) := by
  induction segs generalizing init with
  | nil => simp
  | cons seg t ih =>
    by_cases hc : (pyStrip (seg.content.getD "")).isEmpty <;>
      simp [List.foldl_cons, List.filterMap_cons, hc, ih]

theorem names_fold_getD (smap : List SpeakerMapEntry) (sid : String) :
    ((smap.foldl
      (fun acc2 m => fun x =>
        if x == m.speaker_id.getD "" then some (m.speaker_name.getD "Unknown")
        else acc2 x) (fun _ => none)) sid).getD sid =
      lookup_speaker_name smap sid := by
  rw [speaker_fold_eq]
  unfold lookup_speaker_name
  cases hfind : smap.reverse.find? (fun m => sid == m.speaker_id.getD "") <;>
    simp [hfind]

theorem extract_some_eq (rj : ReportJson) :
    extract_transcript_from_segments (some rj) =
      if (reportSegments rj).isEmpty then none
      else
        if (transcript_lines_spec (reportSpeakerMap rj) (reportSegments rj)).isEmpty
        then none
        else some (String.intercalate "\n"
          (transcript_lines_spec (reportSpeakerMap rj) (reportSegments rj))) := by
  unfold extract_transcript_from_segments
  by_cases hseg : (reportSegments rj).isEmpty
  · simp [hseg]
  · simp only [hseg, Bool.false_eq_true, if_false]
    rw [transcript_fold_eq, List.nil_append]
    have hfun : (fun seg : SegmentJson =>
        if (pyStrip (seg.content.getD "")).isEmpty then none
        else some ("[" ++
          (((reportSpeakerMap rj).foldl
            (fun acc2 m => fun x =>
              if x == m.speaker_id.getD ""
              then some (m.speaker_name.getD "Unknown")
              else acc2 x) (fun _ => none) (seg.speaker.getD "")).getD
            (seg.speaker.getD "")) ++
          "]: " ++ pyStrip (seg.content.getD ""))) =
        (fun seg : SegmentJson =>
          if (pyStrip (seg.content.getD "")).isEmpty then none
          else some ("[" ++
            lookup_speaker_name (reportSpeakerMap rj) (seg.speaker.getD "") ++
            "]: " ++ pyStrip (seg.content.getD ""))) := by
      funext seg
      by_cases hc : (pyStrip (seg.content.getD "")).isEmpty
      · simp [hc]
      · rw [if_neg hc, if_neg hc, names_fold_getD]
    rw [hfun]
    rfl

/-- C9: transcript extraction returns `none` when the report is absent or
has no `transcript.segments`; otherwise it renders exactly the segments
whose content is non-empty after trimming, as `"[name]: content"` lines in
original order, mapping each speaker id through the speaker map with the
raw id as fallback (and `none` again if every segment was dropped); on the
spec's example the output is exactly `"[Ana]: hi"`. -/
theorem transcript_extraction_correct :
    (extract_transcript_from_segments none = none) ∧
    (∀ rj : ReportJson, reportSegments rj = [] →
      extract_transcript_from_segments (some rj) = none) ∧
    (∀ rj : ReportJson,
      extract_transcript_from_segments (some rj) =
        if (transcript_lines_spec (reportSpeakerMap rj) (reportSegments rj)).isEmpty
        then none
        else some (String.intercalate "\n"
          (transcript_lines_spec (reportSpeakerMap rj) (reportSegments rj)))) ∧
    (extract_transcript_from_segments (some demoReport) = some "[Ana]: hi") := by
  refine ⟨rfl, ?_, ?_, ?_⟩
  · intro rj h
    rw [extract_some_eq]
    simp [h]
  · intro rj
    rw [extract_some_eq]
    by_cases hseg : (reportSegments rj).isEmpty
    · have hlines : transcript_lines_spec (reportSpeakerMap rj)
          (reportSegments rj) = [] := by
        rw [List.isEmpty_iff] at hseg
        rw [hseg]
        rfl
      simp [hseg, hlines]
    · simp [hseg]
  · decide

theorem transcript_extraction_correct_witness :
    extract_transcript_from_segments (some (⟨none⟩ : ReportJson)) = none :=
  transcript_extraction_correct.2.1 ⟨none⟩ rfl
